import Mathlib

/-!
Shallow embedding of the `soundtest` repository (src/alsa.rs, src/main.rs):
a real-time audio delivery loop feeding an ALSA playback device from a
software staging buffer (`VecDeque<f32>`), plus the two-thread feeder in
`main` (a shared mutex-guarded sample buffer and a WantMoreData channel).

The staging buffer is modelled faithfully as a ring: a fixed capacity, a
physical start index `head`, and the logical contents `data` (front first).
This is needed because `Device::run` submits `user_buffer.as_slices().0` to
`snd_pcm_writei` — the physically contiguous front run of the ring, which is
only part of the contents once the ring has wrapped.

Hardware calls (`snd_pcm_writei`, `snd_pcm_wait`) are external collaborators;
their results are supplied per loop iteration as an oracle list. Sample
values flow through the code opaquely (no arithmetic is performed on them in
`Device::run`), so the run machinery is generic in the sample type; the
device itself instantiates it at `Float`, the stand-in for Rust `f32`.
-/

set_option autoImplicit false

namespace Soundtest

universe u

/-- Model of Rust `VecDeque<T>` as used by this program: a ring buffer with
fixed capacity `cap`, physical start index `head`, and logical contents
`data` (front of the queue first). `VecDeque::with_capacity(n)` is modelled
as allocating capacity exactly `n`. -/
structure VecDequeM (α : Type u) where
  cap : Nat
  head : Nat
  data : List α
  deriving DecidableEq

namespace VecDequeM

variable {α : Type u}

/-- Model of `VecDeque::with_capacity(n)`: empty contents, head at 0. -/
def with_capacity (α : Type u) (n : Nat) : VecDequeM α := ⟨n, 0, []⟩

/-- Model of `VecDeque::capacity`. -/
def capacity (dq : VecDequeM α) : Nat := dq.cap

/-- Model of `VecDeque::len`. -/
def len (dq : VecDequeM α) : Nat := dq.data.length

/-- Model of `VecDeque::push_back`: appends one element at the back; the
physical head index does not move. -/
def push_back (dq : VecDequeM α) (x : α) : VecDequeM α :=
  { dq with data := dq.data ++ [x] }

/-- Repeated `push_back`, front of `l` pushed first. -/
def push_back_list (dq : VecDequeM α) (l : List α) : VecDequeM α :=
  l.foldl push_back dq

/-- Model of `VecDeque::pop_front`: on a non-empty deque removes the front
element and advances the physical head index modulo the capacity; on an
empty deque (`pop_front` returns `None`) the state is unchanged. -/
def pop_front (dq : VecDequeM α) : VecDequeM α :=
  match dq.data with
  | [] => dq
  | _ :: rest => { dq with head := (dq.head + 1) % dq.cap, data := rest }

/-- The `for _ in 0..ret { self.user_buffer.pop_front(); }` loop of
`Device::run`: `n` successive `pop_front` calls. -/
def pop_front_n (dq : VecDequeM α) : Nat → VecDequeM α
  | 0 => dq
  | n + 1 => pop_front_n dq.pop_front n

/-- Model of `VecDeque::as_slices`: the physically contiguous run starting at
`head`, and the wrapped-around remainder. When the contents fit without
wrapping the second slice is empty. -/
def as_slices (dq : VecDequeM α) : List α × List α :=
  if dq.head + dq.data.length ≤ dq.cap then (dq.data, [])
  else (dq.data.take (dq.cap - dq.head), dq.data.drop (dq.cap - dq.head))

end VecDequeM

/-- Model of `DeviceConfig` (src/alsa.rs). -/
structure DeviceConfig where
  buffer_target_us : Nat
  channels : Nat
  period_target_us : Nat
  sample_rate : Nat
  deriving DecidableEq

/-- Model of `Device` (src/alsa.rs), extended with the two software
parameters `Device::with_config` commits to the driver, so that the
negotiation result is observable. The staging buffer holds `Float` values,
the stand-in for Rust `f32`. -/
structure Device where
  buffer_size : Nat
  period_size : Nat
  sample_rate : Nat
  start_threshold : Nat
  avail_min : Nat
  user_buffer : VecDequeM Float

/-- Model of the successful path of `Device::with_config`. The driver is an
external collaborator: the buffer size and period size it chose (both in
frames) and the actual sample rate it rounded to are inputs. The function
computes `start_threshold = (buffer_size / period_size) * period_size` and
`avail_min = period_size` exactly as the source does, and allocates
`user_buffer = VecDeque::with_capacity(buffer_size as usize)`. Note that the
config's channel count is not used in the allocation. -/
def with_config (config : DeviceConfig) (buffer_size period_size actual_rate : Nat) :
    Device :=
  { buffer_size := buffer_size
    period_size := period_size
    sample_rate := actual_rate
    start_threshold := buffer_size / period_size * period_size
    avail_min := period_size
    user_buffer := VecDequeM.with_capacity Float buffer_size }

/-- The staging-buffer capacity as the spec describes it: buffer size in
frames multiplied by the channel count. Stated from the spec's words, to be
compared with the capacity `with_config` actually allocates. -/
def specStagingCapacity (config : DeviceConfig) (buffer_size : Nat) : Nat :=
  buffer_size * config.channels

/-- Result of one `snd_pcm_writei` call in the loop, as the code inspects
it: a non-negative frame count, the EAGAIN errno (in which case the result
of the subsequent `snd_pcm_wait` is also recorded), or any other negative
result. -/
inductive WriteRet where
  | ok (n : Nat)
  | again (pollRet : Int)
  | err
  deriving DecidableEq

/-- Observation record of one iteration of the `Device::run` loop:
the buffer state at the top of the iteration, the slice submitted to
`snd_pcm_writei`, the write result, the `snd_pcm_wait` calls made
(timeout argument and result), the producer-callback invocations made
(requested counts), and the buffer state at the end of the iteration. -/
structure IterLog (α : Type u) where
  bufBefore : VecDequeM α
  submitted : List α
  ret : WriteRet
  waitCalls : List (Int × Int)
  cbCalls : List Nat
  bufAfter : VecDequeM α
  deriving DecidableEq

/-- How an execution of the loop ends after consuming its oracle: still
running, or terminated by one of the two `panic` sites in `Device::run`. -/
inductive Outcome (σ : Type) (α : Type u) where
  | running (s : σ) (dq : VecDequeM α)
  | panicked (msg : String) (s : σ) (dq : VecDequeM α)

/-- One iteration of the `loop` in `Device::run`, for a producer callback
with captured state `σ` (Rust `FnMut`). Mirrors the source order: take the
front slice via `as_slices`, call `snd_pcm_writei` on it (result supplied by
the oracle `r`); on EAGAIN call `snd_pcm_wait(handle, -1)` and panic if that
is negative, otherwise continue with everything unchanged; on any other
negative result panic; on a non-negative result `n`, pop `n` elements off
the front and invoke the callback with requested count `n`. -/
def loopIter {σ : Type} {α : Type u}
    (data_callback : σ → VecDequeM α → Nat → σ × VecDequeM α)
    (s : σ) (dq : VecDequeM α) (r : WriteRet) : IterLog α × Outcome σ α :=
  let buf := dq.as_slices.1
  match r with
  | .again p =>
      if p < 0 then
        (⟨dq, buf, .again p, [(-1, p)], [], dq⟩, .panicked "Failed to poll device" s dq)
      else
        (⟨dq, buf, .again p, [(-1, p)], [], dq⟩, .running s dq)
  | .err =>
      (⟨dq, buf, .err, [], [], dq⟩, .panicked "Error writing to sound device" s dq)
  | .ok n =>
      let afterPop := dq.pop_front_n n
      let fed := data_callback s afterPop n
      (⟨dq, buf, .ok n, [], [n], fed.2⟩, .running fed.1 fed.2)

/-- The `loop` of `Device::run`, iterated over an oracle list of write
results; returns the per-iteration logs and the final outcome. A panic stops
the loop with the remaining oracle unconsumed. -/
def runLoop {σ : Type} {α : Type u}
    (data_callback : σ → VecDequeM α → Nat → σ × VecDequeM α) :
    σ → VecDequeM α → List WriteRet → List (IterLog α) × Outcome σ α
  | s, dq, [] => ([], .running s dq)
  | s, dq, r :: rs =>
      match loopIter data_callback s dq r with
      | (log, .running s' dq') =>
          let rest := runLoop data_callback s' dq' rs
          (log :: rest.1, rest.2)
      | (log, .panicked m sp dqp) => ([log], .panicked m sp dqp)

/-- Everything `Device::run` did: the pre-fill request size, the buffer state
right after the pre-fill callback, the loop iteration logs, and the outcome. -/
structure RunResult (σ : Type) (α : Type u) where
  prefillWanted : Nat
  prefillBuf : VecDequeM α
  trace : List (IterLog α)
  outcome : Outcome σ α

/-- Model of `Device::run` on a staging buffer: first the pre-fill
(`let wanted = self.user_buffer.capacity(); data_callback(..., wanted)`),
then the write/poll loop. -/
def run {σ : Type} {α : Type u}
    (data_callback : σ → VecDequeM α → Nat → σ × VecDequeM α)
    (s₀ : σ) (dq₀ : VecDequeM α) (rs : List WriteRet) : RunResult σ α :=
  let wanted := dq₀.capacity
  let filled := data_callback s₀ dq₀ wanted
  let lr := runLoop data_callback filled.1 filled.2 rs
  ⟨wanted, filled.2, lr.1, lr.2⟩

/-- Externally visible events of a run, in program order. -/
inductive Event (α : Type u) where
  | callback (wanted : Nat)
  | write (submitted : List α) (ret : WriteRet)
  | wait (timeout : Int) (pollRet : Int)

/-- Whether an event is a hardware write attempt. -/
def Event.isWrite {α : Type u} : Event α → Bool
  | .write _ _ => true
  | _ => false

/-- Events of one loop iteration, in program order: the write first, then
any poll wait, then any callback invocation. -/
def iterEvents {α : Type u} (log : IterLog α) : List (Event α) :=
  Event.write log.submitted log.ret ::
    ((log.waitCalls.map fun p => Event.wait p.1 p.2) ++ log.cbCalls.map Event.callback)

/-- Events of a whole trace. -/
def traceEvents {α : Type u} (tr : List (IterLog α)) : List (Event α) :=
  tr.foldr (fun log acc => iterEvents log ++ acc) []

/-- Events of a whole run: the pre-fill callback, then the loop events. -/
def RunResult.events {σ : Type} {α : Type u} (r : RunResult σ α) : List (Event α) :=
  Event.callback r.prefillWanted :: traceEvents r.trace

/-- The requested counts of the callback invocations that happen before the
first hardware write attempt. -/
def callbacksBeforeFirstWrite {α : Type u} (evs : List (Event α)) : List Nat :=
  (evs.takeWhile fun e => !e.isWrite).filterMap fun e =>
    match e with
    | .callback w => some w
    | _ => none

/-- The ALSA contract for `snd_pcm_writei`: a successful result never
reports more frames written than were submitted. Checked per log entry. -/
def retWithin {α : Type u} (log : IterLog α) : Bool :=
  match log.ret with
  | .ok n => decide (n ≤ log.submitted.length)
  | _ => true

/-- An oracle is valid for the execution it produced when every successful
write result is bounded by the length of the submitted slice. -/
def ValidTrace {α : Type u} (tr : List (IterLog α)) : Prop :=
  ∀ log ∈ tr, retWithin log = true

instance {α : Type u} (tr : List (IterLog α)) : Decidable (ValidTrace tr) :=
  List.decidableBAll _ tr

/-- The producer-callback contract of the spec: each invocation only appends
samples at the back, at most `wanted` of them, leaving the existing samples
untouched. -/
def AppendsAtMost {σ : Type} {α : Type u}
    (data_callback : σ → VecDequeM α → Nat → σ × VecDequeM α) : Prop :=
  ∀ s dq wanted, ∃ l : List α, l.length ≤ wanted ∧
    (data_callback s dq wanted).2 = dq.push_back_list l

/-- A concrete producer callback used for concrete executions: appends
exactly `wanted` copies of the sample `7`. -/
def cbNat : Unit → VecDequeM Nat → Nat → Unit × VecDequeM Nat :=
  fun _ dq wanted => ((), dq.push_back_list (List.replicate wanted 7))

/-- Model of the message enum in src/main.rs. -/
inductive Message where
  | WantMoreData

/-- Model of the `Message::WantMoreData` arm of the receive loop in `main`:
with the shared buffer's mutex held, compute
`getting = buffer.capacity() - buffer.len()` and push exactly `getting`
freshly synthesized samples at the back. The stateful signal generator is
modelled as a stream `sig` with a position `pos` that advances by one per
generated sample. The two threads interact only under the mutex, so the
whole arm is modelled as one atomic step. -/
def handle_want_more_data {α : Type u} (sig : Nat → α) (pos : Nat)
    (buffer : VecDequeM α) : Nat × VecDequeM α :=
  let getting := buffer.capacity - buffer.len
  (pos + getting, buffer.push_back_list ((List.range getting).map fun i => sig (pos + i)))

/-- The `for _ in 0..wanted` loop of the producer callback in `main`: each
round pops the front of the shared buffer; on `Some(sample)` it pushes the
sample at the back of the device queue, on `None` it only prints (modelled
as a no-op). -/
def drain_loop {α : Type u} :
    Nat → VecDequeM α → VecDequeM α → VecDequeM α × VecDequeM α
  | 0, buffer, queue => (buffer, queue)
  | n + 1, buffer, queue =>
      match buffer.data with
      | [] => drain_loop n buffer queue
      | x :: _ => drain_loop n buffer.pop_front (queue.push_back x)

/-- Model of the producer callback closure in `main`: drain up to `wanted`
samples from the shared buffer into the device queue, then send exactly one
`WantMoreData` message (`tx.send(...)` runs unconditionally after the loop;
the third component counts the messages sent by this invocation). -/
def main_callback {α : Type u} (buffer queue : VecDequeM α) (wanted : Nat) :
    VecDequeM α × VecDequeM α × Nat :=
  let drained := drain_loop wanted buffer queue
  (drained.1, drained.2, 1)

/-! Basic lemmas about the `VecDeque` model. -/

namespace VecDequeM

variable {α : Type u}

@[simp] theorem with_capacity_cap (n : Nat) : (with_capacity α n).cap = n := rfl

@[simp] theorem with_capacity_data (n : Nat) : (with_capacity α n).data = [] := rfl

@[simp] theorem capacity_eq (dq : VecDequeM α) : dq.capacity = dq.cap := rfl

@[simp] theorem len_eq (dq : VecDequeM α) : dq.len = dq.data.length := rfl

@[simp] theorem push_back_data (dq : VecDequeM α) (x : α) :
    (dq.push_back x).data = dq.data ++ [x] := rfl

@[simp] theorem push_back_cap (dq : VecDequeM α) (x : α) :
    (dq.push_back x).cap = dq.cap := rfl

@[simp] theorem push_back_list_nil (dq : VecDequeM α) :
    dq.push_back_list [] = dq := rfl

@[simp] theorem push_back_list_cons (dq : VecDequeM α) (x : α) (l : List α) :
    dq.push_back_list (x :: l) = (dq.push_back x).push_back_list l := rfl

@[simp] theorem push_back_list_data (dq : VecDequeM α) (l : List α) :
    (dq.push_back_list l).data = dq.data ++ l := by
  induction l generalizing dq with
  | nil => simp [push_back_list]
  | cons x xs ih =>
      simp [push_back_list] at ih ⊢
      simp [ih, push_back]

@[simp] theorem push_back_list_cap (dq : VecDequeM α) (l : List α) :
    (dq.push_back_list l).cap = dq.cap := by
  induction l generalizing dq with
  | nil => rfl
  | cons x xs ih =>
      simp [push_back_list] at ih ⊢
      simp [ih, push_back]

@[simp] theorem pop_front_data (dq : VecDequeM α) :
    dq.pop_front.data = dq.data.tail := by
  cases h : dq.data <;> simp [pop_front, h]

@[simp] theorem pop_front_cap (dq : VecDequeM α) :
    dq.pop_front.cap = dq.cap := by
  cases h : dq.data <;> simp [pop_front, h]

@[simp] theorem pop_front_n_data (dq : VecDequeM α) (n : Nat) :
    (dq.pop_front_n n).data = dq.data.drop n := by
  induction n generalizing dq with
  | zero => simp [pop_front_n]
  | succ m ih =>
      show (dq.pop_front.pop_front_n m).data = dq.data.drop (m + 1)
      rw [ih, pop_front_data, ← List.drop_one, List.drop_drop, Nat.add_comm]

@[simp] theorem pop_front_n_cap (dq : VecDequeM α) (n : Nat) :
    (dq.pop_front_n n).cap = dq.cap := by
  induction n generalizing dq with
  | zero => rfl
  | succ m ih =>
      show (dq.pop_front.pop_front_n m).cap = dq.cap
      rw [ih, pop_front_cap]

/-- The two slices of `as_slices` are, in order, exactly the contents. -/
theorem as_slices_append (dq : VecDequeM α) :
    dq.as_slices.1 ++ dq.as_slices.2 = dq.data := by
  unfold as_slices
  split <;> simp

/-- The front slice is an initial segment of the contents. -/
theorem as_slices_fst_take (dq : VecDequeM α) :
    ∃ k, dq.as_slices.1 = dq.data.take k := by
  unfold as_slices
  split
  · exact ⟨dq.data.length, by simp⟩
  · exact ⟨dq.cap - dq.head, rfl⟩

/-- The front slice never holds more elements than the deque does. -/
theorem as_slices_fst_length_le (dq : VecDequeM α) :
    dq.as_slices.1.length ≤ dq.data.length := by
  unfold as_slices
  split <;> simp

end VecDequeM

/-! Equation lemmas for the run loop. -/

section LoopLemmas

variable {σ : Type} {α : Type u}
variable (cb : σ → VecDequeM α → Nat → σ × VecDequeM α)

theorem loopIter_ok (s : σ) (dq : VecDequeM α) (n : Nat) :
    loopIter cb s dq (.ok n) =
      (⟨dq, dq.as_slices.1, .ok n, [], [n], (cb s (dq.pop_front_n n) n).2⟩,
        .running (cb s (dq.pop_front_n n) n).1 (cb s (dq.pop_front_n n) n).2) := rfl

theorem loopIter_again_nonneg (s : σ) (dq : VecDequeM α) (p : Int) (hp : 0 ≤ p) :
    loopIter cb s dq (.again p) =
      (⟨dq, dq.as_slices.1, .again p, [(-1, p)], [], dq⟩, .running s dq) := by
  simp [loopIter, Int.not_lt.mpr hp]

theorem loopIter_again_neg (s : σ) (dq : VecDequeM α) (p : Int) (hp : p < 0) :
    loopIter cb s dq (.again p) =
      (⟨dq, dq.as_slices.1, .again p, [(-1, p)], [], dq⟩,
        .panicked "Failed to poll device" s dq) := by
  simp [loopIter, hp]

theorem loopIter_err (s : σ) (dq : VecDequeM α) :
    loopIter cb s dq .err =
      (⟨dq, dq.as_slices.1, .err, [], [], dq⟩,
        .panicked "Error writing to sound device" s dq) := rfl

/-- Every iteration submits the front slice of the buffer it starts from. -/
theorem loopIter_submitted (s : σ) (dq : VecDequeM α) (r : WriteRet) :
    (loopIter cb s dq r).1.submitted = dq.as_slices.1 := by
  cases r with
  | ok n => rfl
  | again p => by_cases hp : p < 0 <;> simp [loopIter, hp]
  | err => rfl

/-- Every iteration starts from the buffer it was given. -/
theorem loopIter_bufBefore (s : σ) (dq : VecDequeM α) (r : WriteRet) :
    (loopIter cb s dq r).1.bufBefore = dq := by
  cases r with
  | ok n => rfl
  | again p => by_cases hp : p < 0 <;> simp [loopIter, hp]
  | err => rfl

theorem runLoop_nil (s : σ) (dq : VecDequeM α) :
    runLoop cb s dq [] = ([], .running s dq) := rfl

theorem runLoop_cons_running (s s' : σ) (dq dq' : VecDequeM α) (r : WriteRet)
    (rs : List WriteRet) (log : IterLog α)
    (h : loopIter cb s dq r = (log, .running s' dq')) :
    runLoop cb s dq (r :: rs) =
      (log :: (runLoop cb s' dq' rs).1, (runLoop cb s' dq' rs).2) := by
  simp [runLoop, h]

theorem runLoop_cons_panicked (s sp : σ) (dq dqp : VecDequeM α) (r : WriteRet)
    (rs : List WriteRet) (log : IterLog α) (m : String)
    (h : loopIter cb s dq r = (log, .panicked m sp dqp)) :
    runLoop cb s dq (r :: rs) = ([log], .panicked m sp dqp) := by
  simp [runLoop, h]

/-- On a non-empty oracle the first recorded iteration is `loopIter` on the
initial state. -/
theorem runLoop_cons_head (s : σ) (dq : VecDequeM α) (r : WriteRet)
    (rs : List WriteRet) :
    (runLoop cb s dq (r :: rs)).1.head? = some (loopIter cb s dq r).1 := by
  rcases h : loopIter cb s dq r with ⟨log, out⟩
  cases out with
  | running s' dq' => simp [runLoop_cons_running cb s s' dq dq' r rs log h]
  | panicked m sp dqp => simp [runLoop_cons_panicked cb s sp dq dqp r rs log m h]

end LoopLemmas

section RunLemmas

variable {σ : Type} {α : Type u}
variable (cb : σ → VecDequeM α → Nat → σ × VecDequeM α)

theorem run_prefillWanted (s₀ : σ) (dq : VecDequeM α) (rs : List WriteRet) :
    (run cb s₀ dq rs).prefillWanted = dq.capacity := rfl

theorem run_prefillBuf (s₀ : σ) (dq : VecDequeM α) (rs : List WriteRet) :
    (run cb s₀ dq rs).prefillBuf = (cb s₀ dq dq.capacity).2 := rfl

theorem run_trace (s₀ : σ) (dq : VecDequeM α) (rs : List WriteRet) :
    (run cb s₀ dq rs).trace =
      (runLoop cb (cb s₀ dq dq.capacity).1 (cb s₀ dq dq.capacity).2 rs).1 := rfl

/-- Inductive invariant of the write/poll loop: starting from a buffer of
capacity `C` whose length is within `C`, with a callback that only appends
at most the requested count and an oracle whose successful write results are
bounded by the submitted slice, every iteration starts and ends with a
buffer of capacity `C` and length at most `C`. -/
theorem runLoop_invariant (hcb : AppendsAtMost cb) (C : Nat) :
    ∀ (rs : List WriteRet) (s : σ) (dq : VecDequeM α),
      dq.cap = C → dq.len ≤ C →
      ValidTrace (runLoop cb s dq rs).1 →
      ∀ log ∈ (runLoop cb s dq rs).1,
        log.bufBefore.cap = C ∧ log.bufBefore.len ≤ C ∧
        log.bufAfter.cap = C ∧ log.bufAfter.len ≤ C := by
  intro rs
  induction rs with
  | nil =>
      intro s dq _ _ _ log hlog
      simp [runLoop_nil] at hlog
  | cons r rs ih =>
      intro s dq hcap hlen hv log hlog
      cases r with
      | ok n =>
          rw [runLoop_cons_running cb s _ dq _ (.ok n) rs _ (loopIter_ok cb s dq n)]
            at hv hlog
          have hn : n ≤ dq.data.length := by
            have hret := hv _ (List.mem_cons_self _ _)
            simp only [retWithin, decide_eq_true_eq] at hret
            exact le_trans hret (VecDequeM.as_slices_fst_length_le dq)
          obtain ⟨l, hl, heq⟩ := hcb s (dq.pop_front_n n) n
          have hcap2 : (cb s (dq.pop_front_n n) n).2.cap = C := by
            rw [heq]; simp [hcap]
          have hlen2 : (cb s (dq.pop_front_n n) n).2.len ≤ C := by
            rw [heq]
            simp only [VecDequeM.len_eq, VecDequeM.push_back_list_data,
              VecDequeM.pop_front_n_data, List.length_append, List.length_drop]
            calc dq.data.length - n + l.length
                ≤ dq.data.length - n + n := Nat.add_le_add_left hl _
              _ = dq.data.length := Nat.sub_add_cancel hn
              _ ≤ C := hlen
          rcases List.mem_cons.mp hlog with hlog | hlog
          · subst hlog
            exact ⟨hcap, hlen, hcap2, hlen2⟩
          · exact ih _ _ hcap2 hlen2
              (fun lg h => hv lg (List.mem_cons_of_mem _ h)) log hlog
      | again p =>
          by_cases hp : p < 0
          · rw [runLoop_cons_panicked cb s s dq dq (.again p) rs _ _
              (loopIter_again_neg cb s dq p hp)] at hlog
            rcases List.mem_cons.mp hlog with hlog | hlog
            · subst hlog; exact ⟨hcap, hlen, hcap, hlen⟩
            · simp at hlog
          · rw [runLoop_cons_running cb s s dq dq (.again p) rs _
              (loopIter_again_nonneg cb s dq p (Int.not_lt.mp hp))] at hv hlog
            rcases List.mem_cons.mp hlog with hlog | hlog
            · subst hlog; exact ⟨hcap, hlen, hcap, hlen⟩
            · exact ih _ _ hcap hlen
                (fun lg h => hv lg (List.mem_cons_of_mem _ h)) log hlog
      | err =>
          rw [runLoop_cons_panicked cb s s dq dq .err rs _ _
            (loopIter_err cb s dq)] at hlog
          rcases List.mem_cons.mp hlog with hlog | hlog
          · subst hlog; exact ⟨hcap, hlen, hcap, hlen⟩
          · simp at hlog

end RunLemmas

/-- Events emitted by the loop iterations never start with a callback: the
first event of every iteration is its write attempt. -/
theorem traceEvents_takeWhile_eq_nil {α : Type u} (tr : List (IterLog α)) :
    (traceEvents tr).takeWhile (fun e => !e.isWrite) = [] := by
  cases tr with
  | nil => rfl
  | cons log tr =>
      show ((iterEvents log ++ traceEvents tr).takeWhile fun e => !e.isWrite) = []
      rw [iterEvents, List.cons_append, List.takeWhile_cons]
      simp [Event.isWrite]

/-- The pre-write callback record of an event list that starts with one
callback and then goes straight to write events. -/
theorem callbacksBeforeFirstWrite_cons {α : Type u} (w : Nat) (evs : List (Event α))
    (h : evs.takeWhile (fun e => !e.isWrite) = []) :
    callbacksBeforeFirstWrite (Event.callback w :: evs) = [w] := by
  unfold callbacksBeforeFirstWrite
  rw [List.takeWhile_cons, h]
  simp [Event.isWrite]

/-- What the drain loop of the producer callback in `main` does: it removes
the first `min wanted available` samples from the front of the shared buffer
and pushes exactly those, in order, at the back of the device queue. -/
theorem drain_loop_spec {α : Type u} :
    ∀ (n : Nat) (buffer queue : VecDequeM α),
      (drain_loop n buffer queue).1.data = buffer.data.drop n ∧
      (drain_loop n buffer queue).2 = queue.push_back_list (buffer.data.take n) := by
  intro n
  induction n with
  | zero => intro buffer queue; simp [drain_loop]
  | succ m ih =>
      intro buffer queue
      obtain ⟨bcap, bhead, bdata⟩ := buffer
      cases bdata with
      | nil =>
          obtain ⟨h1, h2⟩ := ih ⟨bcap, bhead, []⟩ queue
          refine ⟨?_, ?_⟩
          · show (drain_loop m ⟨bcap, bhead, []⟩ queue).1.data =
              (VecDequeM.mk bcap bhead ([] : List α)).data.drop (m + 1)
            rw [h1]; simp
          · show (drain_loop m ⟨bcap, bhead, []⟩ queue).2 =
              queue.push_back_list ((VecDequeM.mk bcap bhead ([] : List α)).data.take (m + 1))
            rw [h2]; simp
      | cons x rest =>
          obtain ⟨h1, h2⟩ :=
            ih (VecDequeM.mk bcap bhead (x :: rest)).pop_front (queue.push_back x)
          refine ⟨?_, ?_⟩
          · show (drain_loop m (VecDequeM.mk bcap bhead (x :: rest)).pop_front
                (queue.push_back x)).1.data =
              (VecDequeM.mk bcap bhead (x :: rest)).data.drop (m + 1)
            rw [h1]; simp
          · show (drain_loop m (VecDequeM.mk bcap bhead (x :: rest)).pop_front
                (queue.push_back x)).2 =
              queue.push_back_list ((VecDequeM.mk bcap bhead (x :: rest)).data.take (m + 1))
            rw [h2]; simp

/-! The claims. -/

/-- Claim C1: for every sequence of playback-loop iterations in which each
producer-callback invocation appends at most `wanted` samples to the back of
the staging buffer (and the driver, per the ALSA contract, never reports
more frames written than were submitted), the staging buffer's length never
exceeds its capacity at any point during `Device::run`: after the pre-fill,
at the top of every iteration, after the pop of the written samples, and at
the end of every iteration. -/
theorem run_capacity_invariant {σ : Type} {α : Type u}
    (cb : σ → VecDequeM α → Nat → σ × VecDequeM α) (s₀ : σ) (C : Nat)
    (rs : List WriteRet) (hcb : AppendsAtMost cb)
    (hvalid : ValidTrace (run cb s₀ (VecDequeM.with_capacity α C) rs).trace) :
    (run cb s₀ (VecDequeM.with_capacity α C) rs).prefillBuf.len ≤ C ∧
    ∀ log ∈ (run cb s₀ (VecDequeM.with_capacity α C) rs).trace,
      log.bufBefore.len ≤ C ∧
      (∀ n, log.ret = WriteRet.ok n → (log.bufBefore.pop_front_n n).len ≤ C) ∧
      log.bufAfter.len ≤ C := by
  obtain ⟨l, hl, heq⟩ := hcb s₀ (VecDequeM.with_capacity α C)
    (VecDequeM.with_capacity α C).capacity
  have hl' : l.length ≤ C := by simpa [VecDequeM.capacity] using hl
  have hpre_cap :
      (cb s₀ (VecDequeM.with_capacity α C) (VecDequeM.with_capacity α C).capacity).2.cap
        = C := by
    rw [heq]; simp
  have hpre_len :
      (cb s₀ (VecDequeM.with_capacity α C) (VecDequeM.with_capacity α C).capacity).2.len
        ≤ C := by
    rw [heq]; simpa using hl'
  rw [run_trace] at hvalid
  have main := runLoop_invariant cb hcb C rs _ _ hpre_cap hpre_len hvalid
  constructor
  · rw [run_prefillBuf]; exact hpre_len
  · intro log hlog
    rw [run_trace] at hlog
    obtain ⟨_, h2, _, h4⟩ := main log hlog
    refine ⟨h2, ?_, h4⟩
    intro n _
    simp only [VecDequeM.len_eq, VecDequeM.pop_front_n_data, List.length_drop]
    exact le_trans (Nat.sub_le _ _) h2

/-- Witness for C1: a concrete run of three iterations at capacity 3, with a
callback that appends exactly the requested number of samples. -/
theorem run_capacity_invariant_witness :
    (run cbNat () (VecDequeM.with_capacity Nat 3)
        [WriteRet.ok 2, WriteRet.again 0, WriteRet.ok 1]).prefillBuf.len ≤ 3 ∧
    ∀ log ∈ (run cbNat () (VecDequeM.with_capacity Nat 3)
        [WriteRet.ok 2, WriteRet.again 0, WriteRet.ok 1]).trace,
      log.bufBefore.len ≤ 3 ∧
      (∀ n, log.ret = WriteRet.ok n → (log.bufBefore.pop_front_n n).len ≤ 3) ∧
      log.bufAfter.len ≤ 3 :=
  run_capacity_invariant cbNat () 3 [WriteRet.ok 2, WriteRet.again 0, WriteRet.ok 1]
    (fun _ dq wanted => ⟨List.replicate wanted 7, by simp, rfl⟩)
    (by decide)

/-- Claim C2: when the write reports EAGAIN the device leaves the staging
buffer and the callback state completely unchanged, invokes no producer
callback, calls `snd_pcm_wait` with infinite timeout (-1), and goes round
the loop again from the very same state — so the retried write submits the
very same slice and no samples are discarded. -/
theorem eagain_retries_unchanged {σ : Type} {α : Type u}
    (cb : σ → VecDequeM α → Nat → σ × VecDequeM α) (s : σ) (dq : VecDequeM α)
    (p : Int) (rs : List WriteRet) (hp : 0 ≤ p) :
    runLoop cb s dq (.again p :: rs) =
      (⟨dq, dq.as_slices.1, .again p, [(-1, p)], [], dq⟩ :: (runLoop cb s dq rs).1,
        (runLoop cb s dq rs).2) ∧
    ∀ r' rs', rs = r' :: rs' →
      ((runLoop cb s dq rs).1.head?.map IterLog.submitted) = some dq.as_slices.1 := by
  constructor
  · exact runLoop_cons_running cb s s dq dq (.again p) rs _
      (loopIter_again_nonneg cb s dq p hp)
  · intro r' rs' hrs
    subst hrs
    rw [runLoop_cons_head]
    simp [loopIter_submitted]

/-- Witness for C2: a concrete EAGAIN iteration (poll result 0) followed by
one more write. -/
theorem eagain_retries_unchanged_witness :
    runLoop cbNat () ⟨3, 0, [1, 2, 3]⟩ (.again 0 :: [WriteRet.ok 1]) =
      (⟨⟨3, 0, [1, 2, 3]⟩, (VecDequeM.mk 3 0 [1, 2, 3]).as_slices.1, .again 0,
          [(-1, 0)], [], ⟨3, 0, [1, 2, 3]⟩⟩ ::
          (runLoop cbNat () ⟨3, 0, [1, 2, 3]⟩ [WriteRet.ok 1]).1,
        (runLoop cbNat () ⟨3, 0, [1, 2, 3]⟩ [WriteRet.ok 1]).2) ∧
    ∀ r' rs', [WriteRet.ok 1] = r' :: rs' →
      ((runLoop cbNat () ⟨3, 0, [1, 2, 3]⟩ [WriteRet.ok 1]).1.head?.map
          IterLog.submitted) =
        some (VecDequeM.mk 3 0 [1, 2, 3]).as_slices.1 :=
  eagain_retries_unchanged cbNat () ⟨3, 0, [1, 2, 3]⟩ 0 [WriteRet.ok 1] (by decide)

/-- Claim C3: a loop iteration in which the write returns a non-negative
count `n` removes exactly the first `n` samples from the front of the
staging buffer — the `n` oldest, in their original order, with all remaining
samples untouched and in order — and then invokes the producer callback
exactly once with requested count `n`. -/
theorem write_ok_fifo_drain {σ : Type} {α : Type u}
    (cb : σ → VecDequeM α → Nat → σ × VecDequeM α) (s : σ) (dq : VecDequeM α)
    (n : Nat) (hn : n ≤ dq.len) :
    loopIter cb s dq (.ok n) =
      (⟨dq, dq.as_slices.1, .ok n, [], [n], (cb s (dq.pop_front_n n) n).2⟩,
        .running (cb s (dq.pop_front_n n) n).1 (cb s (dq.pop_front_n n) n).2) ∧
    (dq.pop_front_n n).data = dq.data.drop n ∧
    dq.data = dq.data.take n ++ (dq.pop_front_n n).data ∧
    (dq.data.take n).length = n := by
  refine ⟨loopIter_ok cb s dq n, by simp, ?_, ?_⟩
  · rw [VecDequeM.pop_front_n_data]
    exact (List.take_append_drop n dq.data).symm
  · rw [List.length_take]
    exact Nat.min_eq_left (by simpa using hn)

/-- Witness for C3: a successful write of 2 frames out of a 4-sample buffer. -/
theorem write_ok_fifo_drain_witness :
    loopIter cbNat () ⟨4, 0, [5, 6, 7, 8]⟩ (.ok 2) =
      (⟨⟨4, 0, [5, 6, 7, 8]⟩, (VecDequeM.mk 4 0 [5, 6, 7, 8]).as_slices.1, .ok 2, [], [2],
          (cbNat () ((VecDequeM.mk 4 0 [5, 6, 7, 8]).pop_front_n 2) 2).2⟩,
        .running (cbNat () ((VecDequeM.mk 4 0 [5, 6, 7, 8]).pop_front_n 2) 2).1
          (cbNat () ((VecDequeM.mk 4 0 [5, 6, 7, 8]).pop_front_n 2) 2).2) ∧
    ((VecDequeM.mk 4 0 [5, 6, 7, 8]).pop_front_n 2).data =
      (VecDequeM.mk 4 0 [5, 6, 7, 8]).data.drop 2 ∧
    (VecDequeM.mk 4 0 [5, 6, 7, 8]).data =
      (VecDequeM.mk 4 0 [5, 6, 7, 8]).data.take 2 ++
        ((VecDequeM.mk 4 0 [5, 6, 7, 8]).pop_front_n 2).data ∧
    ((VecDequeM.mk 4 0 [5, 6, 7, 8]).data.take 2).length = 2 :=
  write_ok_fifo_drain cbNat () ⟨4, 0, [5, 6, 7, 8]⟩ 2 (by decide)

/-- Claim C4: before the first hardware write attempt, `Device::run` invokes
the producer callback exactly once, with requested count equal to the
staging buffer's capacity — the driver-chosen buffer size. -/
theorem prefill_requests_capacity {σ : Type}
    (cb : σ → VecDequeM Float → Nat → σ × VecDequeM Float) (s₀ : σ)
    (config : DeviceConfig) (buffer_size period_size actual_rate : Nat)
    (rs : List WriteRet) :
    (with_config config buffer_size period_size actual_rate).user_buffer.capacity
        = buffer_size ∧
    callbacksBeforeFirstWrite
        (run cb s₀ (with_config config buffer_size period_size actual_rate).user_buffer
          rs).events
      = [buffer_size] := by
  refine ⟨rfl, ?_⟩
  show callbacksBeforeFirstWrite
      (Event.callback buffer_size ::
        traceEvents (run cb s₀
          (with_config config buffer_size period_size actual_rate).user_buffer rs).trace)
    = [buffer_size]
  exact callbacksBeforeFirstWrite_cons _ _ (traceEvents_takeWhile_eq_nil _)

/-- Claim C5 (amended): every write attempt submits the physically
contiguous front slice of the staging-buffer ring — an initial segment of
the current contents (all of them exactly when the ring has not wrapped),
and never more samples than the buffer currently holds. -/
theorem write_submits_front_slice {σ : Type} {α : Type u}
    (cb : σ → VecDequeM α → Nat → σ × VecDequeM α) (s : σ) (dq : VecDequeM α)
    (r : WriteRet) :
    (loopIter cb s dq r).1.submitted = dq.as_slices.1 ∧
    dq.as_slices.1 ++ dq.as_slices.2 = dq.data ∧
    (∃ k, (loopIter cb s dq r).1.submitted = dq.data.take k) ∧
    (loopIter cb s dq r).1.submitted.length ≤ dq.len := by
  refine ⟨loopIter_submitted cb s dq r, VecDequeM.as_slices_append dq, ?_, ?_⟩
  · rw [loopIter_submitted]
    exact VecDequeM.as_slices_fst_take dq
  · rw [loopIter_submitted]
    simpa using VecDequeM.as_slices_fst_length_le dq

/-- Counterexample to claim C5 as stated: in a concrete run the first drain
and refill wrap the ring, and the second write submits only two of the four
samples the staging buffer holds at that point. -/
theorem write_submits_all_counterexample :
    ¬ ∀ log ∈ (run cbNat () (VecDequeM.with_capacity Nat 4)
        [WriteRet.ok 2, WriteRet.ok 0]).trace,
        log.submitted = log.bufBefore.data := by decide

/-- Claim C6: any negative write result other than EAGAIN, and any negative
poll result on the EAGAIN path, hits a `panic!` site: the loop terminates at
once (the rest of the oracle is never consumed), no recovery or
re-preparation is attempted, the producer callback is not invoked, and the
staging buffer is neither drained nor refilled on that path. -/
theorem fatal_error_panics {σ : Type} {α : Type u}
    (cb : σ → VecDequeM α → Nat → σ × VecDequeM α) (s : σ) (dq : VecDequeM α)
    (rs : List WriteRet) (p : Int) (hp : p < 0) :
    runLoop cb s dq (.err :: rs) =
      ([⟨dq, dq.as_slices.1, .err, [], [], dq⟩],
        .panicked "Error writing to sound device" s dq) ∧
    runLoop cb s dq (.again p :: rs) =
      ([⟨dq, dq.as_slices.1, .again p, [(-1, p)], [], dq⟩],
        .panicked "Failed to poll device" s dq) :=
  ⟨runLoop_cons_panicked cb s s dq dq .err rs _ _ (loopIter_err cb s dq),
    runLoop_cons_panicked cb s s dq dq (.again p) rs _ _
      (loopIter_again_neg cb s dq p hp)⟩

/-- Witness for C6: a fatal write error and a fatal poll error (result -1)
on a concrete two-sample buffer, with more oracle entries pending that are
never consumed. -/
theorem fatal_error_panics_witness :
    runLoop cbNat () ⟨2, 0, [1, 2]⟩ (.err :: [WriteRet.ok 1]) =
      ([⟨⟨2, 0, [1, 2]⟩, (VecDequeM.mk 2 0 [1, 2]).as_slices.1, .err, [], [],
          ⟨2, 0, [1, 2]⟩⟩],
        .panicked "Error writing to sound device" () ⟨2, 0, [1, 2]⟩) ∧
    runLoop cbNat () ⟨2, 0, [1, 2]⟩ (.again (-1) :: [WriteRet.ok 1]) =
      ([⟨⟨2, 0, [1, 2]⟩, (VecDequeM.mk 2 0 [1, 2]).as_slices.1, .again (-1),
          [(-1, -1)], [], ⟨2, 0, [1, 2]⟩⟩],
        .panicked "Failed to poll device" () ⟨2, 0, [1, 2]⟩) :=
  fatal_error_panics cbNat () ⟨2, 0, [1, 2]⟩ [WriteRet.ok 1] (-1) (by decide)

/-- Claim C7: after a successful negotiation with driver-chosen buffer size
`B` frames and period size `P` frames, `P > 0`, the committed software start
threshold equals `(B / P) * P` (integer division — hence a multiple of `P`
no larger than `B`) and the committed `avail_min` threshold equals `P`. -/
theorem sw_params_thresholds (config : DeviceConfig)
    (buffer_size period_size actual_rate : Nat) (hP : 0 < period_size) :
    (with_config config buffer_size period_size actual_rate).start_threshold
        = buffer_size / period_size * period_size ∧
    (with_config config buffer_size period_size actual_rate).avail_min = period_size ∧
    (with_config config buffer_size period_size actual_rate).start_threshold
        ≤ buffer_size ∧
    period_size ∣ (with_config config buffer_size period_size actual_rate).start_threshold :=
  ⟨rfl, rfl, Nat.div_mul_le_self _ _,
    dvd_mul_left period_size (buffer_size / period_size)⟩

/-- Witness for C7: buffer size 1024 frames, period size 320 frames (not a
divisor of 1024, so the rounding in the threshold is visible: 960). -/
theorem sw_params_thresholds_witness :
    (with_config ⟨42000, 1, 8000, 44100⟩ 1024 320 44100).start_threshold
        = 1024 / 320 * 320 ∧
    (with_config ⟨42000, 1, 8000, 44100⟩ 1024 320 44100).avail_min = 320 ∧
    (with_config ⟨42000, 1, 8000, 44100⟩ 1024 320 44100).start_threshold ≤ 1024 ∧
    320 ∣ (with_config ⟨42000, 1, 8000, 44100⟩ 1024 320 44100).start_threshold :=
  sw_params_thresholds ⟨42000, 1, 8000, 44100⟩ 1024 320 44100 (by decide)

/-- Claim C8: on each WantMoreData notification the generation thread
computes `free_capacity = capacity - length` of the shared buffer and
appends exactly that many newly synthesized samples at the back — never more
than `capacity - length` — after which the length equals (and so never
exceeds) the capacity. The mutex-guarded read-compute-append is modelled as
one atomic step; the sine generator is the abstract stream `sig` advanced by
`pos`. -/
theorem generator_refill_bound {α : Type u} (sig : Nat → α) (pos : Nat)
    (buffer : VecDequeM α) (h : buffer.len ≤ buffer.capacity) :
    (handle_want_more_data sig pos buffer).2.data =
        buffer.data ++
          (List.range (buffer.capacity - buffer.len)).map (fun i => sig (pos + i)) ∧
    ((List.range (buffer.capacity - buffer.len)).map (fun i => sig (pos + i))).length =
        buffer.capacity - buffer.len ∧
    (handle_want_more_data sig pos buffer).2.len = buffer.capacity ∧
    (handle_want_more_data sig pos buffer).2.len
        ≤ (handle_want_more_data sig pos buffer).2.capacity := by
  have hdata : (handle_want_more_data sig pos buffer).2.data =
      buffer.data ++
        (List.range (buffer.capacity - buffer.len)).map (fun i => sig (pos + i)) := by
    simp [handle_want_more_data]
  have hlen : (handle_want_more_data sig pos buffer).2.len = buffer.capacity := by
    rw [VecDequeM.len_eq, hdata]
    simp only [List.length_append, List.length_map, List.length_range]
    have h' : buffer.data.length ≤ buffer.cap := by simpa [VecDequeM.capacity] using h
    simp [VecDequeM.capacity, VecDequeM.len_eq]
    omega
  have hcap : (handle_want_more_data sig pos buffer).2.capacity = buffer.capacity := by
    simp [handle_want_more_data, VecDequeM.capacity]
  exact ⟨hdata, by simp, hlen, by rw [hlen, hcap]⟩

/-- Witness for C8: a shared buffer of capacity 5 holding 2 samples is
refilled with exactly 3 samples drawn from the stream at position 10. -/
theorem generator_refill_bound_witness :
    (handle_want_more_data (fun i => i) 10 ⟨5, 0, [1, 2]⟩).2.data =
        (VecDequeM.mk 5 0 [1, 2]).data ++
          (List.range ((VecDequeM.mk 5 0 [1, 2]).capacity -
            (VecDequeM.mk 5 0 [1, 2]).len)).map (fun i => (fun i => i) (10 + i)) ∧
    ((List.range ((VecDequeM.mk 5 0 [1, 2]).capacity -
        (VecDequeM.mk 5 0 [1, 2]).len)).map (fun i => (fun i => i) (10 + i))).length =
        (VecDequeM.mk 5 0 [1, 2]).capacity - (VecDequeM.mk 5 0 [1, 2]).len ∧
    (handle_want_more_data (fun i => i) 10 ⟨5, 0, [1, 2]⟩).2.len =
        (VecDequeM.mk 5 0 [1, 2]).capacity ∧
    (handle_want_more_data (fun i => i) 10 ⟨5, 0, [1, 2]⟩).2.len ≤
        (handle_want_more_data (fun i => i) 10 ⟨5, 0, [1, 2]⟩).2.capacity :=
  generator_refill_bound (fun i => i) 10 ⟨5, 0, [1, 2]⟩ (by decide)

/-- Claim C9 (amended): the staging buffer constructed by successful
negotiation has capacity equal to the driver-chosen buffer size in frames —
the configured channel count is not factored in — holds float samples (the
model's stand-in for Rust `f32`), and starts empty. -/
theorem staging_buffer_initial (config : DeviceConfig)
    (buffer_size period_size actual_rate : Nat) :
    (with_config config buffer_size period_size actual_rate).user_buffer =
        VecDequeM.with_capacity Float buffer_size ∧
    (with_config config buffer_size period_size actual_rate).user_buffer.capacity
        = buffer_size ∧
    (with_config config buffer_size period_size actual_rate).user_buffer.len = 0 :=
  ⟨rfl, rfl, rfl⟩

/-- Counterexample to claim C9 as stated: with 2 configured channels and a
driver-chosen buffer size of 4 frames, the allocated staging capacity is 4,
not the spec's frames-times-channels product 8. -/
theorem staging_capacity_counterexample :
    (with_config ⟨42000, 2, 8000, 44100⟩ 4 3 44100).user_buffer.capacity ≠
      specStagingCapacity ⟨42000, 2, 8000, 44100⟩ 4 := by decide

/-- Claim C10: each invocation of the playback thread's producer callback
sends exactly one WantMoreData notification, regardless of how many samples
the shared buffer holds; it appends exactly the first `wanted` samples of
the shared buffer (all the available ones when fewer than `wanted` are held)
to the back of the staging queue in their original front-to-back order,
leaving the samples already in the queue untouched, and removes exactly
those samples from the front of the shared buffer. It is a total function of
its inputs: no crash, no unbounded blocking. -/
theorem callback_drains_and_notifies {α : Type u}
    (buffer queue : VecDequeM α) (wanted : Nat) :
    (main_callback buffer queue wanted).2.2 = 1 ∧
    (main_callback buffer queue wanted).2.1.data =
        queue.data ++ buffer.data.take wanted ∧
    (main_callback buffer queue wanted).1.data = buffer.data.drop wanted := by
  obtain ⟨h1, h2⟩ := drain_loop_spec wanted buffer queue
  refine ⟨rfl, ?_, ?_⟩
  · show (drain_loop wanted buffer queue).2.data = queue.data ++ buffer.data.take wanted
    rw [h2]; simp
  · show (drain_loop wanted buffer queue).1.data = buffer.data.drop wanted
    exact h1

end Soundtest
